import Mathlib

/-!
Verification of the user-management CRUD service in `src/main.py`.

The service keeps a single in-memory mapping from user id to user record
(the Python dict `users_db`) and exposes five handlers: create, get by id,
search by name, update, delete.  We embed the store as an association list
`List (Int × User)` whose order models Python dict insertion order, and
each handler as a pure function from a store and the request data to a
response paired with the successor store.
-/

set_option autoImplicit false

namespace CrudApi

/-- A user record, mirroring the pydantic `User` model fields of
`src/main.py` (lines 18-22): id, name, phone_no, address. -/
structure User where
  id : Int
  name : String
  phone_no : String
  address : String
deriving DecidableEq, Repr

/-- A partial-update request, mirroring the pydantic `UserUpdate` model of
`src/main.py` (lines 35-38): each field optional. -/
structure UserUpdate where
  name : Option String
  phone_no : Option String
  address : Option String
deriving DecidableEq, Repr

/-- The in-memory store `users_db`: an association list from id to record,
in dict insertion order. -/
abbrev Store : Type := List (Int × User)

/-- The body of a successful JSON response: a message object, a single
user object, or a list of user objects. -/
inductive RespBody where
  | message (s : String)
  | user (u : User)
  | users (l : List User)
deriving DecidableEq, Repr

/-- An HTTP-level outcome: a success response with a status code and body,
or an HTTPException-style error with a status code and detail string. -/
inductive Resp where
  | ok (status : Nat) (body : RespBody)
  | error (status : Nat) (detail : String)
deriving DecidableEq, Repr

/-- Is the response a schema-validation rejection (HTTP 422)? -/
def isValidationError : Resp → Bool
  | Resp.error 422 _ => true
  | _ => false

/-- First value stored under a key, modelling `users_db[id]` /
`id in users_db`. -/
def findUser : Store → Int → Option User
  | [], _ => none
  | (k, u) :: rest, id => if k = id then some u else findUser rest id

/-- `id in users_db`. -/
def hasId (db : Store) (id : Int) : Bool :=
  (findUser db id).isSome

/-- `users_db[id] = u` when the key is already present: replace the value
at the first entry carrying the key, keeping its position (Python dict
assignment to an existing key keeps insertion order). -/
def setExisting : Store → Int → User → Store
  | [], _, _ => []
  | (k, v) :: rest, id, u =>
      if k = id then (k, u) :: rest else (k, v) :: setExisting rest id u

/-- `del users_db[id]`: remove the entry carrying the key. -/
def delKey : Store → Int → Store
  | [], _ => []
  | (k, v) :: rest, id =>
      if k = id then rest else (k, v) :: delKey rest id

/-- Does the lowered character list `needle` occur at the head of
`haystack`? (Helper for the case-insensitive substring test.) -/
def matchesAt : List Char → List Char → Bool
  | [], _ => true
  | _ :: _, [] => false
  | c :: cs, d :: ds => c = d && matchesAt cs ds

/-- Does `needle` occur contiguously anywhere inside `haystack`? -/
def occursIn (needle : List Char) : List Char → Bool
  | [] => matchesAt needle []
  | d :: ds => matchesAt needle (d :: ds) || occursIn needle ds

/-- ASCII case folding of one character, embedding the effect of
`str.lower()` on the letters A-Z (the only characters the standard-library
case fold also touches in this code's domain). -/
def lowerChar (c : Char) : Char :=
  if 65 ≤ c.toNat ∧ c.toNat ≤ 90 then Char.ofNat (c.toNat + 32) else c

/-- `query.lower() in s.lower()`: the case-insensitive substring test used
by the search handler (`src/main.py` line 75). -/
def containsCI (query s : String) : Bool :=
  occursIn (query.toList.map lowerChar) (s.toList.map lowerChar)

/-- Field constraint on `name` from the pydantic Field declaration:
length 1 to 100. -/
def validName (s : String) : Bool :=
  1 ≤ s.length && s.length ≤ 100

/-- Field constraint on `phone_no`: length 10 to 15. -/
def validPhone (s : String) : Bool :=
  10 ≤ s.length && s.length ≤ 15

/-- Field constraint on `address`: length 1 to 200. -/
def validAddress (s : String) : Bool :=
  1 ≤ s.length && s.length ≤ 200

/-- Schema validity of a full `User` payload, from the Field declarations
of `src/main.py` lines 18-22: id strictly positive, and the three string
constraints. -/
def User.valid (u : User) : Bool :=
  (0 < u.id : Bool) && validName u.name && validPhone u.phone_no
    && validAddress u.address

/-- Schema validity of a `UserUpdate` payload (`src/main.py` lines 35-38):
each field, when supplied, obeys the same constraint as on create. -/
def UserUpdate.valid (upd : UserUpdate) : Bool :=
  (match upd.name with | some n => validName n | none => true)
    && (match upd.phone_no with | some p => validPhone p | none => true)
    && (match upd.address with | some a => validAddress a | none => true)

/-- Handler `create_user` (`src/main.py` lines 50-62): 400 if the id is
already a key, otherwise store the record and answer 201. -/
def create_user (db : Store) (user : User) : Resp × Store :=
  if hasId db user.id then
    (Resp.error 400 "User with this ID already exists", db)
  else
    (Resp.ok 201 (RespBody.message "User created successfully"),
      db ++ [(user.id, user)])

/-- Handler `search_users_by_name` (`src/main.py` lines 66-77): the list of
stored records whose name contains the query case-insensitively, in store
iteration order; always 200, never an error. -/
def search_users_by_name (db : Store) (name : String) : Resp × Store :=
  (Resp.ok 200 (RespBody.users
      ((db.map Prod.snd).filter (fun u => containsCI name u.name))), db)

/-- Handler `get_user_by_id` (`src/main.py` lines 80-91): 404 if the id is
absent, otherwise the stored record with 200. -/
def get_user_by_id (db : Store) (id : Int) : Resp × Store :=
  match findUser db id with
  | none => (Resp.error 404 "User not found", db)
  | some u => (Resp.ok 200 (RespBody.user u), db)

/-- The record produced by the field-by-field copy in `update_user`
(`src/main.py` lines 107-113): each supplied field overwrites, each
omitted field keeps its prior value; the id field is never touched. -/
def applyUpdate (u : User) (upd : UserUpdate) : User :=
  { id := u.id
    name := upd.name.getD u.name
    phone_no := upd.phone_no.getD u.phone_no
    address := upd.address.getD u.address }

/-- Handler `update_user` (`src/main.py` lines 94-116): 404 if the id is
absent, otherwise overwrite the supplied fields and answer 200. -/
def update_user (db : Store) (id : Int) (upd : UserUpdate) : Resp × Store :=
  match findUser db id with
  | none => (Resp.error 404 "User not found", db)
  | some u =>
      (Resp.ok 200 (RespBody.message "User updated successfully"),
        setExisting db id (applyUpdate u upd))

/-- Handler `delete_user` (`src/main.py` lines 119-131): 404 if the id is
absent, otherwise remove the entry and answer 200. -/
def delete_user (db : Store) (id : Int) : Resp × Store :=
  match findUser db id with
  | none => (Resp.error 404 "User not found", db)
  | some _ =>
      (Resp.ok 200 (RespBody.message "User deleted successfully"),
        delKey db id)

/-- Modelled from the spec: the FastAPI/pydantic schema-validation layer in
front of `create_user` is not part of `src/main.py` (only the Field
constraints are); per the spec error taxonomy, a request body violating a
field constraint is rejected with HTTP 422 before the handler body runs,
leaving the store untouched. -/
def create_endpoint (db : Store) (user : User) : Resp × Store :=
  if user.valid then create_user db user
  else (Resp.error 422 "value_error", db)

/-- Modelled from the spec: the schema-validation layer in front of
`update_user`; a supplied field violating its constraint is rejected with
HTTP 422 before the handler body runs. -/
def update_endpoint (db : Store) (id : Int) (upd : UserUpdate) : Resp × Store :=
  if upd.valid then update_user db id upd
  else (Resp.error 422 "value_error", db)

/-- Modelled from the spec: the query-parameter validation layer in front
of `search_users_by_name` (the `Query(min_length=1)` declaration); an
empty query string is rejected with HTTP 422 before the handler body runs. -/
def search_endpoint (db : Store) (name : String) : Resp × Store :=
  if 1 ≤ name.length then search_users_by_name db name
  else (Resp.error 422 "value_error", db)

/-- One request to the service: the five operations of the API surface. -/
inductive Op where
  | create (u : User)
  | get (id : Int)
  | search (q : String)
  | update (id : Int) (upd : UserUpdate)
  | del (id : Int)
deriving DecidableEq, Repr

/-- Dispatch one request against the store, through the validation layer. -/
def step (db : Store) : Op → Resp × Store
  | Op.create u => create_endpoint db u
  | Op.get id => get_user_by_id db id
  | Op.search q => search_endpoint db q
  | Op.update id upd => update_endpoint db id upd
  | Op.del id => delete_user db id

/-- Run a sequence of requests from a starting store. -/
def run (db : Store) (ops : List Op) : Store :=
  ops.foldl (fun d op => (step d op).2) db

/-- The store invariant: every stored record satisfies the schema
constraints, its id field equals the key it is stored under, and keys are
pairwise distinct (at most one record per id). -/
def StoreOK (db : Store) : Prop :=
  (∀ p ∈ db, (Prod.snd p).valid = true ∧ (Prod.snd p).id = Prod.fst p)
    ∧ (db.map Prod.fst).Nodup

instance : DecidablePred StoreOK := by
  intro db
  unfold StoreOK
  infer_instance

/-- The example record of the spec walkthrough, used as concrete input for
witnesses. -/
def u0 : User :=
  { id := 1, name := "John Doe", phone_no := "1234567890",
    address := "123 Main St" }

/-! ### Helper lemmas about the store primitives -/

theorem hasId_eq_false_iff (db : Store) (id : Int) :
    hasId db id = false ↔ findUser db id = none := by
  unfold hasId
  cases findUser db id <;> simp

theorem findUser_eq_none_iff (db : Store) (id : Int) :
    findUser db id = none ↔ id ∉ db.map Prod.fst := by
  induction db with
  | nil => simp [findUser]
  | cons p rest ih =>
      obtain ⟨k, v⟩ := p
      by_cases hk : k = id
      · subst hk
        simp [findUser]
      · simp only [findUser, if_neg hk, List.map_cons, List.mem_cons, not_or, ih]
        constructor
        · intro h
          exact ⟨fun he => hk he.symm, h⟩
        · intro h
          exact h.2

theorem findUser_mem (db : Store) (id : Int) (u : User)
    (h : findUser db id = some u) : (id, u) ∈ db := by
  induction db with
  | nil => simp [findUser] at h
  | cons p rest ih =>
      obtain ⟨k, v⟩ := p
      by_cases hk : k = id
      · simp [findUser, hk] at h
        simp [hk, h]
      · simp [findUser, hk] at h
        exact List.mem_cons_of_mem _ (ih h)

theorem findUser_append_fresh (db : Store) (id : Int) (u : User)
    (h : findUser db id = none) : findUser (db ++ [(id, u)]) id = some u := by
  induction db with
  | nil => simp [findUser]
  | cons p rest ih =>
      obtain ⟨k, v⟩ := p
      by_cases hk : k = id
      · simp [findUser, hk] at h
      · simp [findUser, hk] at h ⊢
        exact ih h

theorem findUser_setExisting_self (db : Store) (id : Int) (u v : User)
    (h : findUser db id = some u) :
    findUser (setExisting db id v) id = some v := by
  induction db with
  | nil => simp [findUser] at h
  | cons p rest ih =>
      obtain ⟨k, w⟩ := p
      by_cases hk : k = id
      · simp [setExisting, findUser, hk]
      · simp [findUser, hk] at h
        simp [setExisting, findUser, hk, ih h]

theorem findUser_setExisting_ne (db : Store) (id k : Int) (v : User)
    (h : k ≠ id) : findUser (setExisting db id v) k = findUser db k := by
  induction db with
  | nil => simp [setExisting]
  | cons p rest ih =>
      obtain ⟨k', w⟩ := p
      by_cases hk' : k' = id
      · subst hk'
        simp [setExisting, findUser, Ne.symm h]
      · by_cases hkk : k' = k
        · subst hkk
          simp [setExisting, findUser, hk']
        · simp [setExisting, findUser, hk', hkk, ih]

theorem setExisting_self (db : Store) (id : Int) (u : User)
    (h : findUser db id = some u) : setExisting db id u = db := by
  induction db with
  | nil => rfl
  | cons p rest ih =>
      obtain ⟨k, w⟩ := p
      by_cases hk : k = id
      · simp [findUser, hk] at h
        simp [setExisting, hk, h]
      · simp [findUser, hk] at h
        simp [setExisting, hk, ih h]

theorem keys_setExisting (db : Store) (id : Int) (u : User) :
    (setExisting db id u).map Prod.fst = db.map Prod.fst := by
  induction db with
  | nil => rfl
  | cons p rest ih =>
      obtain ⟨k, v⟩ := p
      by_cases hk : k = id <;> simp [setExisting, hk, ih]

theorem mem_setExisting (db : Store) (id : Int) (u : User) (p : Int × User)
    (h : p ∈ setExisting db id u) : p ∈ db ∨ p = (id, u) := by
  induction db with
  | nil => simp [setExisting] at h
  | cons q rest ih =>
      obtain ⟨k, v⟩ := q
      by_cases hk : k = id
      · subst hk
        simp [setExisting] at h
        rcases h with h | h
        · right; simp [h]
        · left; exact List.mem_cons_of_mem _ h
      · simp [setExisting, hk] at h
        rcases h with h | h
        · left; simp [h]
        · rcases ih h with h' | h'
          · left; exact List.mem_cons_of_mem _ h'
          · right; exact h'

theorem delKey_sublist (db : Store) (id : Int) :
    (delKey db id).Sublist db := by
  induction db with
  | nil => simp [delKey]
  | cons p rest ih =>
      obtain ⟨k, v⟩ := p
      by_cases hk : k = id
      · simp [delKey, hk]
      · simpa [delKey, hk] using ih

theorem findUser_delKey_self (db : Store) (id : Int)
    (h : (db.map Prod.fst).Nodup) : findUser (delKey db id) id = none := by
  induction db with
  | nil => rfl
  | cons p rest ih =>
      obtain ⟨k, v⟩ := p
      simp only [List.map_cons, List.nodup_cons] at h
      by_cases hk : k = id
      · subst hk
        simp [delKey]
        exact (findUser_eq_none_iff rest k).2 h.1
      · simp [delKey, findUser, hk]
        exact ih h.2

theorem applyUpdate_valid (u : User) (upd : UserUpdate)
    (hu : u.valid = true) (hupd : upd.valid = true) :
    (applyUpdate u upd).valid = true := by
  unfold User.valid at hu ⊢
  unfold UserUpdate.valid at hupd
  simp only [Bool.and_eq_true] at hu hupd ⊢
  unfold applyUpdate
  refine ⟨⟨⟨hu.1.1.1, ?_⟩, ?_⟩, ?_⟩
  · cases h : upd.name with
    | none => simpa [h] using hu.1.1.2
    | some n => have := hupd.1.1; simpa [h] using this
  · cases h : upd.phone_no with
    | none => simpa [h] using hu.1.2
    | some p => have := hupd.1.2; simpa [h] using this
  · cases h : upd.address with
    | none => simpa [h] using hu.2
    | some a => have := hupd.2; simpa [h] using this

theorem user_valid_iff (u : User) :
    u.valid = true
      ↔ 0 < u.id ∧ (1 ≤ u.name.length ∧ u.name.length ≤ 100)
        ∧ (10 ≤ u.phone_no.length ∧ u.phone_no.length ≤ 15)
        ∧ (1 ≤ u.address.length ∧ u.address.length ≤ 200) := by
  unfold User.valid validName validPhone validAddress
  simp only [Bool.and_eq_true, decide_eq_true_eq]
  tauto

/-! ### Claim theorems -/

/-- Claim C1: for every valid user record whose id is not already in the
store, create succeeds and a subsequent get by the same id returns status
200 with a record identical to the created one in all four fields. -/
theorem C1_create_then_get (db : Store) (u : User)
    (hv : u.valid = true) (hfresh : hasId db u.id = false) :
    (create_endpoint db u).1
        = Resp.ok 201 (RespBody.message "User created successfully")
    ∧ get_user_by_id (create_endpoint db u).2 u.id
        = (Resp.ok 200 (RespBody.user u), (create_endpoint db u).2) := by
  have hnone := (hasId_eq_false_iff db u.id).1 hfresh
  have hstep : create_endpoint db u
      = (Resp.ok 201 (RespBody.message "User created successfully"),
          db ++ [(u.id, u)]) := by
    simp [create_endpoint, hv, create_user, hfresh]
  rw [hstep]
  exact ⟨rfl, by simp [get_user_by_id, findUser_append_fresh db u.id u hnone]⟩

/-- Witness for C1 at the empty store and the example record. -/
theorem C1_witness :
    u0.valid = true ∧ hasId [] u0.id = false
    ∧ ((create_endpoint [] u0).1
          = Resp.ok 201 (RespBody.message "User created successfully")
      ∧ get_user_by_id (create_endpoint [] u0).2 u0.id
          = (Resp.ok 200 (RespBody.user u0), (create_endpoint [] u0).2)) :=
  ⟨by decide, by decide, C1_create_then_get [] u0 (by decide) (by decide)⟩

/-- Claim C2: creating a valid record whose id is already present answers
400 with detail User with this ID already exists, and the failed call
leaves the store (hence the record already stored under that id)
completely unchanged. -/
theorem C2_duplicate_create (db : Store) (u : User)
    (hv : u.valid = true) (hdup : hasId db u.id = true) :
    create_endpoint db u
      = (Resp.error 400 "User with this ID already exists", db) := by
  simp [create_endpoint, hv, create_user, hdup]

/-- Witness for C2: a second create of the example id against a store
already holding it. -/
theorem C2_witness :
    User.valid { u0 with name := "Jane Doe" } = true
    ∧ hasId [(1, u0)] (User.id { u0 with name := "Jane Doe" }) = true
    ∧ create_endpoint [(1, u0)] { u0 with name := "Jane Doe" }
        = (Resp.error 400 "User with this ID already exists", [(1, u0)]) :=
  ⟨by decide, by decide,
    C2_duplicate_create [(1, u0)] { u0 with name := "Jane Doe" }
      (by decide) (by decide)⟩

/-- Claim C10: an update request supplying none of the three optional
fields succeeds with 200 and the update message, and leaves the stored
record (and the whole store) identical to its prior value. -/
theorem C10_empty_update_noop (db : Store) (id : Int) (u : User)
    (h : findUser db id = some u) :
    update_endpoint db id ⟨none, none, none⟩
      = (Resp.ok 200 (RespBody.message "User updated successfully"), db) := by
  have hv : UserUpdate.valid ⟨none, none, none⟩ = true := rfl
  have happ : applyUpdate u ⟨none, none, none⟩ = u := rfl
  simp [update_endpoint, hv, update_user, h, happ, setExisting_self db id u h]

/-- Witness for C10 at a singleton store. -/
theorem C10_witness :
    findUser [(1, u0)] 1 = some u0
    ∧ update_endpoint [(1, u0)] 1 ⟨none, none, none⟩
        = (Resp.ok 200 (RespBody.message "User updated successfully"),
            [(1, u0)]) :=
  ⟨by decide, C10_empty_update_noop [(1, u0)] 1 u0 (by decide)⟩

/-- Claim C3: a successful partial update changes exactly the supplied
fields, keeps every omitted field and the id field at their prior values,
and leaves the record stored under every other key unchanged. -/
theorem C3_partial_update_frame (db : Store) (id : Int) (upd : UserUpdate)
    (u : User) (h : findUser db id = some u) (hv : upd.valid = true) :
    (update_endpoint db id upd).1
        = Resp.ok 200 (RespBody.message "User updated successfully")
    ∧ findUser (update_endpoint db id upd).2 id
        = some { id := u.id, name := upd.name.getD u.name,
                 phone_no := upd.phone_no.getD u.phone_no,
                 address := upd.address.getD u.address }
    ∧ ∀ k, k ≠ id → findUser (update_endpoint db id upd).2 k = findUser db k := by
  have hstep : update_endpoint db id upd
      = (Resp.ok 200 (RespBody.message "User updated successfully"),
          setExisting db id (applyUpdate u upd)) := by
    simp [update_endpoint, hv, update_user, h]
  rw [hstep]
  exact ⟨rfl, findUser_setExisting_self db id u _ h,
    fun k hk => findUser_setExisting_ne db id k _ hk⟩

/-- Witness for C3: rename the example record in a two-record store; the
other record is untouched. -/
theorem C3_witness :
    findUser [(1, u0), (2, { u0 with id := 2 })] 1 = some u0
    ∧ UserUpdate.valid ⟨some "Jane Doe", none, none⟩ = true
    ∧ ((update_endpoint [(1, u0), (2, { u0 with id := 2 })] 1
          ⟨some "Jane Doe", none, none⟩).1
        = Resp.ok 200 (RespBody.message "User updated successfully")
      ∧ findUser (update_endpoint [(1, u0), (2, { u0 with id := 2 })] 1
          ⟨some "Jane Doe", none, none⟩).2 1
        = some { id := u0.id,
                 name := Option.getD (some "Jane Doe") u0.name,
                 phone_no := Option.getD none u0.phone_no,
                 address := Option.getD none u0.address }
      ∧ ∀ k, k ≠ 1 →
          findUser (update_endpoint [(1, u0), (2, { u0 with id := 2 })] 1
            ⟨some "Jane Doe", none, none⟩).2 k
          = findUser [(1, u0), (2, { u0 with id := 2 })] k) :=
  ⟨by decide, by decide,
    C3_partial_update_frame [(1, u0), (2, { u0 with id := 2 })] 1
      ⟨some "Jane Doe", none, none⟩ u0 (by decide) (by decide)⟩

/-- Claim C4: deleting a present id succeeds with 200 and the delete
message, and a subsequent get of the same id answers 404 with detail
User not found (assuming the store invariant of distinct keys). -/
theorem C4_delete_then_get (db : Store) (id : Int)
    (hpresent : hasId db id = true)
    (hnodup : (db.map Prod.fst).Nodup) :
    (delete_user db id).1
        = Resp.ok 200 (RespBody.message "User deleted successfully")
    ∧ get_user_by_id (delete_user db id).2 id
        = (Resp.error 404 "User not found", (delete_user db id).2) := by
  obtain ⟨u, hu⟩ : ∃ u, findUser db id = some u := by
    unfold hasId at hpresent
    cases h : findUser db id with
    | none => rw [h] at hpresent; simp at hpresent
    | some u => exact ⟨u, rfl⟩
  have hstep : delete_user db id
      = (Resp.ok 200 (RespBody.message "User deleted successfully"),
          delKey db id) := by
    simp [delete_user, hu]
  rw [hstep]
  exact ⟨rfl, by simp [get_user_by_id, findUser_delKey_self db id hnodup]⟩

/-- Witness for C4 at a singleton store. -/
theorem C4_witness :
    hasId [(1, u0)] 1 = true
    ∧ (([(1, u0)] : Store).map Prod.fst).Nodup
    ∧ ((delete_user [(1, u0)] 1).1
        = Resp.ok 200 (RespBody.message "User deleted successfully")
      ∧ get_user_by_id (delete_user [(1, u0)] 1).2 1
        = (Resp.error 404 "User not found", (delete_user [(1, u0)] 1).2)) :=
  ⟨by decide, by decide, C4_delete_then_get [(1, u0)] 1 (by decide) (by decide)⟩

/-- Claim C5: for a non-empty query, search answers 200 with exactly the
stored records whose name contains the query case-insensitively, in store
iteration order, leaving the store unchanged; an empty result is an empty
list, never an error. -/
theorem C5_search_characterisation (db : Store) (q : String) (hq : q ≠ "") :
    search_endpoint db q
      = (Resp.ok 200 (RespBody.users
          ((db.map Prod.snd).filter (fun u => containsCI q u.name))), db)
    ∧ ∀ u : User,
        u ∈ (db.map Prod.snd).filter (fun u => containsCI q u.name)
          ↔ u ∈ db.map Prod.snd ∧ containsCI q u.name = true := by
  have hlen : 1 ≤ q.length := by
    have hne : q.length ≠ 0 := by
      intro h0
      apply hq
      cases q with
      | mk data =>
          cases data with
          | nil => rfl
          | cons c cs => simp [String.length] at h0
    omega
  constructor
  · simp [search_endpoint, hlen, search_users_by_name]
  · intro u
    simp [List.mem_filter]

/-- Witness for C5: a query matching the example record and one matching
nothing. -/
theorem C5_witness :
    ("ohn d" : String) ≠ ""
    ∧ search_endpoint [(1, u0)] "ohn d"
        = (Resp.ok 200 (RespBody.users
            ((([(1, u0)] : Store).map Prod.snd).filter
              (fun u => containsCI "ohn d" u.name))), [(1, u0)])
    ∧ search_endpoint [(1, u0)] "xyz"
        = (Resp.ok 200 (RespBody.users []), [(1, u0)]) :=
  ⟨by decide, (C5_search_characterisation [(1, u0)] "ohn d" (by decide)).1,
    by
      have h := (C5_search_characterisation [(1, u0)] "xyz" (by decide)).1
      rw [h]
      decide⟩

/-- Claim C6: get, update (with a schema-valid body) and delete answer 404
with detail User not found exactly when the id is not a key of the store,
and in that case the store is left completely unchanged. -/
theorem C6_not_found_iff (db : Store) (id : Int) (upd : UserUpdate)
    (hupd : upd.valid = true) :
    ((get_user_by_id db id).1 = Resp.error 404 "User not found"
        ↔ hasId db id = false)
    ∧ ((update_endpoint db id upd).1 = Resp.error 404 "User not found"
        ↔ hasId db id = false)
    ∧ ((delete_user db id).1 = Resp.error 404 "User not found"
        ↔ hasId db id = false)
    ∧ (hasId db id = false →
        (get_user_by_id db id).2 = db
        ∧ (update_endpoint db id upd).2 = db
        ∧ (delete_user db id).2 = db) := by
  cases h : findUser db id with
  | none =>
      have hfalse : hasId db id = false := by simp [hasId, h]
      simp [get_user_by_id, update_endpoint, hupd, update_user, delete_user,
        h, hfalse]
  | some u =>
      have htrue : hasId db id = true := by simp [hasId, h]
      simp [get_user_by_id, update_endpoint, hupd, update_user, delete_user,
        h, htrue]

/-- Witness for C6 at a singleton store and an absent id. -/
theorem C6_witness :
    UserUpdate.valid ⟨none, some "5550001111", none⟩ = true
    ∧ (((get_user_by_id [(1, u0)] 2).1 = Resp.error 404 "User not found"
          ↔ hasId [(1, u0)] 2 = false)
      ∧ ((update_endpoint [(1, u0)] 2 ⟨none, some "5550001111", none⟩).1
            = Resp.error 404 "User not found" ↔ hasId [(1, u0)] 2 = false)
      ∧ ((delete_user [(1, u0)] 2).1 = Resp.error 404 "User not found"
          ↔ hasId [(1, u0)] 2 = false)
      ∧ (hasId [(1, u0)] 2 = false →
          (get_user_by_id [(1, u0)] 2).2 = [(1, u0)]
          ∧ (update_endpoint [(1, u0)] 2 ⟨none, some "5550001111", none⟩).2
              = [(1, u0)]
          ∧ (delete_user [(1, u0)] 2).2 = [(1, u0)])) :=
  ⟨by decide,
    C6_not_found_iff [(1, u0)] 2 ⟨none, some "5550001111", none⟩ (by decide)⟩

/-- Claim C7: a create request is rejected by schema validation with 422
exactly when some field violates its constraint (id not positive, name
empty or over 100, phone shorter than 10 or over 15, address empty or over
200), and a 422 rejection leaves the store unchanged; a request meeting
every constraint is never rejected with 422. -/
theorem C7_create_schema_validation (db : Store) (u : User) :
    (isValidationError (create_endpoint db u).1 = true
      ↔ (u.id ≤ 0 ∨ u.name.length < 1 ∨ 100 < u.name.length
          ∨ u.phone_no.length < 10 ∨ 15 < u.phone_no.length
          ∨ u.address.length < 1 ∨ 200 < u.address.length))
    ∧ (isValidationError (create_endpoint db u).1 = true
        → (create_endpoint db u).2 = db) := by
  by_cases hv : u.valid = true
  · obtain ⟨h1, ⟨h2, h3⟩, ⟨h4, h5⟩, h6, h7⟩ := (user_valid_iff u).1 hv
    have hno : isValidationError (create_endpoint db u).1 = false := by
      unfold create_endpoint
      rw [if_pos hv]
      unfold create_user
      by_cases hd : hasId db u.id <;> simp [hd, isValidationError]
    rw [hno]
    constructor
    · simp only [Bool.false_eq_true, false_iff]
      intro hcon
      rcases hcon with h | h | h | h | h | h | h <;> omega
    · intro hcon
      simp at hcon
  · have h422 : create_endpoint db u = (Resp.error 422 "value_error", db) := by
      unfold create_endpoint
      rw [if_neg hv]
    rw [h422]
    refine ⟨?_, fun _ => rfl⟩
    simp only [isValidationError, true_iff]
    by_contra hcon
    push_neg at hcon
    obtain ⟨hc1, hc2, hc3, hc4, hc5, hc6, hc7⟩ := hcon
    exact hv ((user_valid_iff u).2
      ⟨by omega, ⟨by omega, by omega⟩, ⟨by omega, by omega⟩, by omega, by omega⟩)

/-- Witness for C7: an invalid record (empty name) is rejected with 422
and the store is unchanged. -/
theorem C7_witness :
    (isValidationError (create_endpoint [] { u0 with name := "" }).1 = true
      ↔ (User.id { u0 with name := "" } ≤ 0
          ∨ (User.name { u0 with name := "" }).length < 1
          ∨ 100 < (User.name { u0 with name := "" }).length
          ∨ (User.phone_no { u0 with name := "" }).length < 10
          ∨ 15 < (User.phone_no { u0 with name := "" }).length
          ∨ (User.address { u0 with name := "" }).length < 1
          ∨ 200 < (User.address { u0 with name := "" }).length))
    ∧ (isValidationError (create_endpoint [] { u0 with name := "" }).1 = true
        → (create_endpoint [] { u0 with name := "" }).2 = []) :=
  C7_create_schema_validation [] { u0 with name := "" }

/-- Claim C8 as stated is false: the get-by-id handler declares its id
parameter as a plain int with no positivity constraint, so a non-positive
id is not rejected at validation; at the concrete input id = 0 against the
empty store the handler performs the ordinary lookup and answers the
lookup failure 404, not a 422 validation rejection. -/
theorem C8_counterexample :
    isValidationError (get_user_by_id [] 0).1 = false
    ∧ (get_user_by_id [] 0).1 = Resp.error 404 "User not found" :=
  ⟨rfl, rfl⟩

/-- Claim C8 amended: get-by-id does not validate positivity of its id; a
non-positive id is treated as an ordinary lookup, which (on any store
satisfying the store invariant, whose keys are all positive) answers 404
with detail User not found and leaves the store unchanged. -/
theorem C8_amended_get_no_positivity_check (db : Store) (id : Int)
    (hid : id ≤ 0) (hok : StoreOK db) :
    get_user_by_id db id = (Resp.error 404 "User not found", db) := by
  have hnone : findUser db id = none := by
    rw [findUser_eq_none_iff]
    intro hmem
    obtain ⟨p, hp, hpe⟩ := List.mem_map.1 hmem
    have hfields := hok.1 p hp
    have hpos : 0 < (Prod.snd p).id := ((user_valid_iff _).1 hfields.1).1
    have hkey : (Prod.snd p).id = Prod.fst p := hfields.2
    omega
  simp [get_user_by_id, hnone]

/-- Witness for the amended C8 at id = 0 against a singleton store. -/
theorem C8_amended_witness :
    (0 : Int) ≤ 0 ∧ StoreOK [(1, u0)]
    ∧ get_user_by_id [(1, u0)] 0
        = (Resp.error 404 "User not found", [(1, u0)]) :=
  ⟨by decide, by decide,
    C8_amended_get_no_positivity_check [(1, u0)] 0 (by decide) (by decide)⟩

/-! ### Invariant preservation (claim C9) -/

theorem StoreOK_nil : StoreOK ([] : Store) :=
  ⟨by simp, List.nodup_nil⟩

theorem StoreOK_create (db : Store) (u : User) (h : StoreOK db) :
    StoreOK (create_endpoint db u).2 := by
  obtain ⟨hvals, hnodup⟩ := h
  unfold create_endpoint
  by_cases hv : u.valid = true
  · rw [if_pos hv]
    unfold create_user
    cases hd : hasId db u.id with
    | true => simpa [hd] using ⟨hvals, hnodup⟩
    | false =>
      have hfresh : u.id ∉ db.map Prod.fst := by
        rw [← findUser_eq_none_iff, ← hasId_eq_false_iff]
        exact hd
      simp only [hd, Bool.false_eq_true, if_false]
      refine ⟨?_, ?_⟩
      · intro p hp
        rcases List.mem_append.1 hp with hp | hp
        · exact hvals p hp
        · rw [List.mem_singleton] at hp
          subst hp
          exact ⟨hv, rfl⟩
      · rw [List.map_append, List.nodup_append]
        refine ⟨hnodup, List.nodup_singleton _, ?_⟩
        intro x hx hx2
        simp only [List.map_cons, List.map_nil, List.mem_singleton] at hx2
        subst hx2
        exact hfresh hx
  · rw [if_neg hv]
    exact ⟨hvals, hnodup⟩

theorem StoreOK_update (db : Store) (id : Int) (upd : UserUpdate)
    (h : StoreOK db) : StoreOK (update_endpoint db id upd).2 := by
  obtain ⟨hvals, hnodup⟩ := h
  unfold update_endpoint
  by_cases hv : upd.valid = true
  · rw [if_pos hv]
    unfold update_user
    cases hf : findUser db id with
    | none => exact ⟨hvals, hnodup⟩
    | some u =>
        have hmem := findUser_mem db id u hf
        have hu := hvals (id, u) hmem
        refine ⟨?_, ?_⟩
        · intro p hp
          rcases mem_setExisting db id (applyUpdate u upd) p hp with hp | hp
          · exact hvals p hp
          · subst hp
            exact ⟨applyUpdate_valid u upd hu.1 hv, hu.2⟩
        · rw [keys_setExisting]
          exact hnodup
  · rw [if_neg hv]
    exact ⟨hvals, hnodup⟩

theorem StoreOK_delete (db : Store) (id : Int) (h : StoreOK db) :
    StoreOK (delete_user db id).2 := by
  obtain ⟨hvals, hnodup⟩ := h
  unfold delete_user
  cases hf : findUser db id with
  | none => exact ⟨hvals, hnodup⟩
  | some u =>
      refine ⟨?_, ?_⟩
      · intro p hp
        exact hvals p ((delKey_sublist db id).subset hp)
      · exact hnodup.sublist ((delKey_sublist db id).map Prod.fst)

theorem step_preserves_StoreOK (db : Store) (op : Op) (h : StoreOK db) :
    StoreOK (step db op).2 := by
  cases op with
  | create u => exact StoreOK_create db u h
  | get id =>
      have : (get_user_by_id db id).2 = db := by
        cases hf : findUser db id <;> simp [get_user_by_id, hf]
      simpa [step, this] using h
  | search q =>
      have : (search_endpoint db q).2 = db := by
        unfold search_endpoint search_users_by_name
        by_cases hl : 1 ≤ q.length <;> simp [hl]
      simpa [step, this] using h
  | update id upd => exact StoreOK_update db id upd h
  | del id => exact StoreOK_delete db id h

theorem run_preserves_StoreOK (ops : List Op) (db : Store)
    (h : StoreOK db) : StoreOK (run db ops) := by
  induction ops generalizing db with
  | nil => exact h
  | cons op rest ih =>
      have hstep : run db (op :: rest) = run (step db op).2 rest := rfl
      rw [hstep]
      exact ih _ (step_preserves_StoreOK db op h)

/-- Claim C9: the store invariant (every stored record satisfies the field
constraints, its id field equals its key, and keys are pairwise distinct)
holds of the empty store, is preserved by every operation, and therefore
holds after any request sequence run from the empty store. -/
theorem C9_store_invariant :
    StoreOK ([] : Store)
    ∧ (∀ (db : Store) (op : Op), StoreOK db → StoreOK (step db op).2)
    ∧ ∀ ops : List Op, StoreOK (run [] ops) :=
  ⟨StoreOK_nil, step_preserves_StoreOK,
    fun ops => run_preserves_StoreOK ops [] StoreOK_nil⟩

/-- Witness for C9: one create step from the empty store keeps the
invariant. -/
theorem C9_witness : StoreOK (step [] (Op.create u0)).2 :=
  C9_store_invariant.2.1 [] (Op.create u0) (by decide)

end CrudApi
